import Mathlib

/-!
# kube-watch-diff: the snapshot tracker and the diff renderer

A shallow embedding of `diffobj` from `main.go` (its three name helpers,
`diffWithPrevious`, `script` and `diff`) with the effects made explicit:
the temporary files, the output writer, the log, and the outcomes of the
operating-system calls, which are taken from an environment record.
-/

namespace KubeWatchDiff

/-! ## Data model -/

/-- An `*unstructured.Unstructured` as `diffWithPrevious` reads it. The tracker
looks at an object through two library calls only: `GetResourceVersion()` and
`yaml.Marshal(obj)`, which returns the bytes `d` and an error. The three fields
are what these calls return for the object. -/
structure Unstructured where
  resourceVersion : String
  yamlBytes : String
  yamlErr : Option String
deriving DecidableEq, Repr

/-- The accessor `GetResourceVersion()`. -/
def Unstructured.GetResourceVersion (u : Unstructured) : String :=
  u.resourceVersion

/-- The call `yaml.Marshal(obj)`: the bytes and the error. -/
def yamlMarshal (u : Unstructured) : String × Option String :=
  (u.yamlBytes, u.yamlErr)

/-- The `obj interface{}` handed to an event handler: either a (non-nil)
`*unstructured.Unstructured` or a value of some other dynamic type, for which
the type assertion of `diffWithPrevious` fails. -/
inductive Payload where
  | unstructured (u : Unstructured)
  | other (dynType : String)
deriving DecidableEq, Repr

/-- The struct `diffobj`. The field `output io.Writer` is the `output`
component of `World`; `baseObject` is `none` for the nil pointer. -/
structure diffobj where
  resource : String
  «namespace» : String
  name : String
  baseObject : Option Unstructured
  baseYAML : String
deriving DecidableEq, Repr

/-- The temporary directory: file names with their contents. -/
abbrev Files := List (String × String)

/-- Everything outside the tracker that `diffWithPrevious` can change.
`files` are the existing temporary files, `output` the chunks written to
`o.output`, `logs` the entries of the standard logger. `diffCalls` and
`commands` are history variables: the arguments of every call of `diff` and the
argument vector of every subprocess that was run. -/
@[ext]
structure World where
  files : Files
  output : List String
  logs : List String
  diffCalls : List (String × String)
  commands : List (List String)
deriving DecidableEq, Repr

/-- The outcomes of the system calls made by one call of `diff`.
`tempFile1` and `tempFile2` answer `ioutil.TempFile("", pattern)` with the name
of the created file or an error, `write1` and `write2` are the error of the two
`Write` calls (`none` for success), `now` is `time.Now()` as printed by `%v`,
and `bash` is the subprocess: from the script and the files it can read to what
it writes on stdout and stderr and the error of `cmd.Run()`. -/
structure DiffEnv where
  tempFile1 : String → Except String String
  write1 : Option String
  tempFile2 : String → Except String String
  write2 : Option String
  now : String
  bash : String → Files → String × Option String

/-! ## File operations -/

/-- The names of the existing temporary files. -/
def fileNames (fs : Files) : List String := fs.map Prod.fst

/-- The call `ioutil.TempFile`: the file is opened with `O_CREATE|O_EXCL`, so a
name that exists already is never returned; the new file is empty. -/
def TempFile (answer : Except String String) (fs : Files) : Except String (String × Files) :=
  match answer with
  | .error err => .error err
  | .ok nm => if nm ∈ fileNames fs then .error "file exists" else .ok (nm, (nm, "") :: fs)

/-- The call `file.Write([]byte(data))`. -/
def Write (answer : Option String) (nm data : String) (fs : Files) : Option String × Files :=
  match answer with
  | some err => (some err, fs)
  | none => (none, fs.map (fun p => if p.1 = nm then (nm, data) else p))

/-- The call `os.Remove(name)`. -/
def Remove (nm : String) (fs : Files) : Files :=
  fs.filter (fun p => p.1 ≠ nm)

/-! ## Names -/

/-- The method `formatName`. -/
def diffobj.formatName (o : diffobj) (sep : String) : String :=
  if o.«namespace» = "" then
    o.resource ++ sep ++ o.name
  else
    o.resource ++ sep ++ o.«namespace» ++ sep ++ o.name

/-- The method `fileName`. -/
def diffobj.fileName (o : diffobj) : String :=
  o.formatName "_"

/-- The method `labelName`. -/
def diffobj.labelName (o : diffobj) : String :=
  o.formatName "/" ++ ".yaml"

/-! ## The script -/

/-- The variable `script`. -/
def script : String :=
  "\n#! /bin/bash\noldFile=%s\noldFileLabel=%s\nnewFile=%s\nnewFileLabel=%s\n\ntype colordiff &>/dev/null && \x7b\n\tcolordiff -ruwN --color-term-output-only=yes $\x7boldFile\x7d --label old/$\x7boldFileLabel\x7d $\x7bnewFile\x7d --label new/$\x7bnewFileLabel\x7d\n\texit 0\n\x7d\ndiff -ruwN $\x7boldFile\x7d --label old/$\x7boldFileLabel\x7d $\x7bnewFile\x7d --label new/$\x7bnewFileLabel\x7d\n"

/-- The verb `%s` of `fmt.Sprintf` on string operands: each `%s` is replaced by
the next operand. -/
def sprintfAux : List Char → List String → List Char
  | c :: c2 :: rest, a :: as =>
    if c = '%' ∧ c2 = 's' then a.data ++ sprintfAux rest as
    else c :: sprintfAux (c2 :: rest) (a :: as)
  | c :: rest, args => c :: sprintfAux rest args
  | [], _ => []

/-- The call `fmt.Sprintf(format, args...)` for a format whose only verb is `%s`. -/
def Sprintf (format : String) (args : List String) : String :=
  ⟨sprintfAux format.data args⟩

/-- The text of `script` before its first verb. -/
def scriptPart0 : String := "\n#! /bin/bash\noldFile="

/-- The text of `script` between its first and second verb. -/
def scriptPart1 : String := "\noldFileLabel="

/-- The text of `script` between its second and third verb. -/
def scriptPart2 : String := "\nnewFile="

/-- The text of `script` between its third and fourth verb. -/
def scriptPart3 : String := "\nnewFileLabel="

/-- The text of `script` after its fourth verb: the two commands, which label
the sides `old/` and `new/`. -/
def scriptPart4 : String :=
  "\n\ntype colordiff &>/dev/null && \x7b\n\tcolordiff -ruwN --color-term-output-only=yes $\x7boldFile\x7d --label old/$\x7boldFileLabel\x7d $\x7bnewFile\x7d --label new/$\x7bnewFileLabel\x7d\n\texit 0\n\x7d\ndiff -ruwN $\x7boldFile\x7d --label old/$\x7boldFileLabel\x7d $\x7bnewFile\x7d --label new/$\x7bnewFileLabel\x7d\n"

/-! ## The renderer -/

/-- The header line that `diff` prints before it runs the subprocess. -/
def diffobj.header (o : diffobj) (now : String) : String :=
  if o.«namespace» ≠ "" then
    "# Resource: kubectl get " ++ o.resource ++ " -oyaml -n " ++ o.«namespace» ++ " " ++ o.name
      ++ " @ " ++ now ++ "\n"
  else
    "# Resource: kubectl get " ++ o.resource ++ " -oyaml " ++ o.name ++ " @ " ++ now ++ "\n"

/-- The body of `diff` once both temporary files exist: the second write, the
header, the formatted script and the subprocess, whose error is discarded. -/
def diffobj.diffRender (o : diffobj) (e : DiffEnv) (w : World) (file file2 right : String) :
    World × Option String :=
  match Write e.write2 file2 right w.files with
  | (some err, fs) => ({ w with files := fs }, some err)
  | (none, fs) =>
    let formattedScript := Sprintf script [file, o.labelName, file2, o.labelName]
    let ran := e.bash formattedScript fs
    ({ w with
        files := fs
        output := w.output ++ [o.header e.now, ran.1]
        commands := w.commands ++ [["bash", "-c", formattedScript]] },
      none)

/-- The body of `diff` once the first temporary file exists: the first write
and the creation of the second file, which is removed when the rest returns
(the second `defer`). -/
def diffobj.diffStage (o : diffobj) (e : DiffEnv) (w : World) (file left right : String) :
    World × Option String :=
  match Write e.write1 file left w.files with
  | (some err, fs) => ({ w with files := fs }, some err)
  | (none, fs) =>
    match TempFile (e.tempFile2 (o.fileName ++ ".yaml-")) fs with
    | .error err => ({ w with files := fs }, some err)
    | .ok (file2, fs2) =>
      let r := o.diffRender e { w with files := fs2 } file file2 right
      ({ r.1 with files := Remove file2 r.1.files }, r.2)

/-- The method `diff`: it returns the new world and the error (`none` for nil).
The first temporary file is removed when the rest returns (the first `defer`). -/
def diffobj.diff (o : diffobj) (e : DiffEnv) (w : World) (left right : String) :
    World × Option String :=
  let w0 := { w with diffCalls := w.diffCalls ++ [(left, right)] }
  match TempFile (e.tempFile1 (o.fileName ++ ".yaml-")) w0.files with
  | .error err => (w0, some err)
  | .ok (file, fs1) =>
    let r := o.diffStage e { w0 with files := fs1 } file left right
    ({ r.1 with files := Remove file r.1.files }, r.2)

/-- The four steps before the subprocess succeed: both temporary files are
created under fresh names and both writes succeed. -/
def stepsSucceed (o : diffobj) (e : DiffEnv) (fs : Files) (f1 f2 : String) : Prop :=
  e.tempFile1 (o.fileName ++ ".yaml-") = .ok f1 ∧ f1 ∉ fileNames fs ∧ e.write1 = none ∧
    e.tempFile2 (o.fileName ++ ".yaml-") = .ok f2 ∧ f2 ∉ f1 :: fileNames fs ∧ e.write2 = none

/-! ## The tracker -/

/-- The method `diffWithPrevious`. -/
def diffobj.diffWithPrevious (o : diffobj) (e : DiffEnv) (w : World) (obj : Payload) :
    diffobj × World :=
  match obj with
  | .other _ => (o, w)
  | .unstructured unstObj =>
    let d := (yamlMarshal unstObj).1
    match o.baseObject with
    | none => ({ o with baseObject := some unstObj, baseYAML := d }, w)
    | some base =>
      if base.GetResourceVersion = unstObj.GetResourceVersion then (o, w)
      else
        match o.diff e w o.baseYAML d with
        | (w1, some err) => (o, { w1 with logs := w1.logs ++ ["diff failed " ++ err] })
        | (w1, none) => ({ o with baseObject := some unstObj, baseYAML := d }, w1)

/-- The events of one watch session in arrival order, each with the
environment in which it is handled. The three handlers registered in `Run`
(`AddFunc`, `UpdateFunc`, `DeleteFunc`) all pass the object of the event to
`diffWithPrevious` of the same `diffobj`. -/
def feed (o : diffobj) (w : World) : List (Payload × DiffEnv) → diffobj × World
  | [] => (o, w)
  | x :: rest =>
    feed (o.diffWithPrevious x.2 w x.1).1 (o.diffWithPrevious x.2 w x.1).2 rest

/-- An event that carries an `*unstructured.Unstructured`. -/
def objectEvent (x : Unstructured × DiffEnv) : Payload × DiffEnv :=
  (Payload.unstructured x.1, x.2)

/-! ## Notions of the specification -/

/-- The events that remain after `prev` when every event whose resourceVersion
equals that of the event immediately before it is deleted. -/
def dropReplaysAfter (prev : String) : List (Unstructured × DiffEnv) → List (Unstructured × DiffEnv)
  | [] => []
  | x :: rest =>
    if x.1.resourceVersion = prev then dropReplaysAfter x.1.resourceVersion rest
    else x :: dropReplaysAfter x.1.resourceVersion rest

/-- The sequence obtained by deleting every event whose resourceVersion equals
that of the event immediately before it: the first event of each run is kept. -/
def dropReplays : List (Unstructured × DiffEnv) → List (Unstructured × DiffEnv)
  | [] => []
  | x :: rest => x :: dropReplaysAfter x.1.resourceVersion rest

/-- Every event has a resourceVersion different from that of the event before it. -/
def versionsChange (us : List (Unstructured × DiffEnv)) : Prop :=
  List.Chain' (fun a b => a.1.resourceVersion ≠ b.1.resourceVersion) us

/-! ## Concrete objects and environments -/

/-- An environment in which every step of `diff` succeeds. -/
def envOk : DiffEnv where
  tempFile1 := fun pattern => .ok ("/tmp/" ++ pattern ++ "1")
  write1 := none
  tempFile2 := fun pattern => .ok ("/tmp/" ++ pattern ++ "2")
  write2 := none
  now := "t0"
  bash := fun _ fs => (String.intercalate "|" (fs.map Prod.snd), none)

/-- An environment in which the first temporary file cannot be created. -/
def envNoTemp : DiffEnv :=
  { envOk with tempFile1 := fun _ => .error "no space left on device" }

/-- An environment in which the subprocess exits with an error. -/
def envBashFails : DiffEnv :=
  { envOk with bash := fun _ _ => ("bash: diff: command not found", some "exit status 127") }

/-- The empty world. -/
def world0 : World := ⟨[], [], [], [], []⟩

/-- A tracker of deployment `default/web` that has seen nothing yet. -/
def tracker0 : diffobj := ⟨"deployments", "default", "web", none, ""⟩

/-- Version 1 of the object. -/
def objV1 : Unstructured := ⟨"1", "replicas: 1", none⟩

/-- Version 2 of the object. -/
def objV2 : Unstructured := ⟨"2", "replicas: 3", none⟩

/-- An object that `yaml.Marshal` rejects. -/
def objBad : Unstructured := ⟨"7", "", some "yaml: cannot marshal"⟩

/-- The tracker after it has stored version 1. -/
def tracker1 : diffobj := ⟨"deployments", "default", "web", some objV1, "replicas: 1"⟩

/-! ## Lemmas on `Sprintf` -/

theorem sprintfAux_char (c : Char) (hc : c ≠ '%') (rest : List Char) (args : List String) :
    sprintfAux (c :: rest) args = c :: sprintfAux rest args := by
  cases rest <;> cases args <;> simp [sprintfAux, hc]

theorem sprintfAux_plain (l : List Char) (h : '%' ∉ l) (rest : List Char) (args : List String) :
    sprintfAux (l ++ rest) args = l ++ sprintfAux rest args := by
  induction l with
  | nil => rfl
  | cons c l ih =>
    have hc : c ≠ '%' := fun hc => h (by simp [hc])
    have hl : '%' ∉ l := fun hl => h (by simp [hl])
    rw [List.cons_append, sprintfAux_char c hc, ih hl, List.cons_append]

theorem sprintfAux_verb (rest : List Char) (a : String) (as : List String) :
    sprintfAux ('%' :: 's' :: rest) (a :: as) = a.data ++ sprintfAux rest as := by
  simp [sprintfAux]

set_option maxRecDepth 100000 in
theorem script_data : script.data =
    scriptPart0.data ++ ('%' :: 's' :: (scriptPart1.data ++ ('%' :: 's' :: (scriptPart2.data ++
      ('%' :: 's' :: (scriptPart3.data ++ ('%' :: 's' :: (scriptPart4.data ++ [])))))))) := by
  decide

set_option maxRecDepth 100000 in
theorem Sprintf_script (a b c d : String) :
    Sprintf script [a, b, c, d] =
      scriptPart0 ++ a ++ scriptPart1 ++ b ++ scriptPart2 ++ c ++ scriptPart3 ++ d ++ scriptPart4 := by
  have h0 : '%' ∉ scriptPart0.data := by decide
  have h1 : '%' ∉ scriptPart1.data := by decide
  have h2 : '%' ∉ scriptPart2.data := by decide
  have h3 : '%' ∉ scriptPart3.data := by decide
  have h4 : '%' ∉ scriptPart4.data := by decide
  apply String.ext
  simp only [Sprintf, script_data, String.data_append]
  rw [sprintfAux_plain _ h0, sprintfAux_verb, sprintfAux_plain _ h1, sprintfAux_verb,
    sprintfAux_plain _ h2, sprintfAux_verb, sprintfAux_plain _ h3, sprintfAux_verb,
    sprintfAux_plain _ h4]
  simp [sprintfAux]

/-! ## Lemmas on the temporary files -/

theorem map_write_fresh (nm data : String) (fs : Files) (h : nm ∉ fileNames fs) :
    fs.map (fun p => if p.1 = nm then (nm, data) else p) = fs := by
  induction fs with
  | nil => rfl
  | cons p fs ih =>
    simp only [fileNames, List.map_cons, List.mem_cons, not_or] at h
    have hp : ¬ p.1 = nm := fun hp => h.1 hp.symm
    simp only [List.map_cons, hp, if_false]
    rw [ih (by simpa [fileNames] using h.2)]

theorem Remove_fresh (nm : String) (fs : Files) (h : nm ∉ fileNames fs) :
    Remove nm fs = fs := by
  unfold Remove
  rw [List.filter_eq_self]
  intro p hp
  have hne : p.1 ≠ nm := by
    intro heq
    apply h
    rw [← heq]
    exact List.mem_map_of_mem Prod.fst hp
  simpa using hne

theorem Remove_cons_self (nm c : String) (fs : Files) (h : nm ∉ fileNames fs) :
    Remove nm ((nm, c) :: fs) = fs := by
  have h2 := Remove_fresh nm fs h
  unfold Remove at h2 ⊢
  rw [List.filter_cons]
  simpa using h2

theorem Write_cons_self (a : Option String) (nm c data : String) (fs : Files)
    (h : nm ∉ fileNames fs) :
    (Write a nm data ((nm, c) :: fs)).2 = (nm, if a = none then data else c) :: fs := by
  cases a with
  | some err => simp [Write]
  | none => simp [Write, map_write_fresh nm data fs h]

theorem TempFile_ok (a : Except String String) (fs : Files) (nm : String) (fs1 : Files)
    (h : TempFile a fs = .ok (nm, fs1)) :
    a = .ok nm ∧ nm ∉ fileNames fs ∧ fs1 = (nm, "") :: fs := by
  unfold TempFile at h
  cases a with
  | error err => simp at h
  | ok n =>
    simp only at h
    split at h
    · simp at h
    · rename_i hn
      simp only [Except.ok.injEq, Prod.mk.injEq] at h
      obtain ⟨h1, h2⟩ := h
      subst h1
      exact ⟨rfl, hn, h2.symm⟩

/-! ## Lemmas on `diff` -/

theorem diffRender_files (o : diffobj) (e : DiffEnv) (w : World) (file file2 right c : String)
    (fs : Files) (h : file2 ∉ fileNames fs) (hw : w.files = (file2, c) :: fs) :
    Remove file2 (o.diffRender e w file file2 right).1.files = fs := by
  unfold diffobj.diffRender
  cases hwr : e.write2 with
  | some err => simp [Write, hw, Remove_cons_self _ _ _ h]
  | none =>
    have := Write_cons_self none file2 c right fs h
    simp only [Write] at this
    simp [Write, hw, this, Remove_cons_self _ _ _ h]

theorem diffStage_files (o : diffobj) (e : DiffEnv) (w : World) (file left right c : String)
    (fs : Files) (h : file ∉ fileNames fs) (hw : w.files = (file, c) :: fs) :
    Remove file (o.diffStage e w file left right).1.files = fs := by
  unfold diffobj.diffStage
  cases hwr : e.write1 with
  | some err => simp [Write, hw, Remove_cons_self _ _ _ h]
  | none =>
    have hmap := Write_cons_self none file c left fs h
    simp only [Write, if_true] at hmap
    simp only [Write, hw, hmap]
    cases ht : TempFile (e.tempFile2 (o.fileName ++ ".yaml-")) ((file, left) :: fs) with
    | error err => simp [Remove_cons_self _ _ _ h]
    | ok r =>
      obtain ⟨file2, fs2⟩ := r
      obtain ⟨_, hfresh, hfs2⟩ := TempFile_ok _ _ _ _ ht
      simp only
      rw [diffRender_files o e _ file file2 right "" ((file, left) :: fs) hfresh (by simp [hfs2])]
      exact Remove_cons_self _ _ _ h

theorem diff_files (o : diffobj) (e : DiffEnv) (w : World) (left right : String) :
    (o.diff e w left right).1.files = w.files := by
  unfold diffobj.diff
  simp only
  cases ht : TempFile (e.tempFile1 (o.fileName ++ ".yaml-")) w.files with
  | error err => rfl
  | ok r =>
    obtain ⟨file, fs1⟩ := r
    obtain ⟨_, hfresh, hfs1⟩ := TempFile_ok _ _ _ _ ht
    simp only
    exact diffStage_files o e _ file left right "" w.files hfresh (by simp [hfs1])

theorem diffRender_logs (o : diffobj) (e : DiffEnv) (w : World) (file file2 right : String) :
    (o.diffRender e w file file2 right).1.logs = w.logs ∧
      (o.diffRender e w file file2 right).1.diffCalls = w.diffCalls := by
  unfold diffobj.diffRender
  cases e.write2 <;> simp [Write]

theorem diffStage_logs (o : diffobj) (e : DiffEnv) (w : World) (file left right : String) :
    (o.diffStage e w file left right).1.logs = w.logs ∧
      (o.diffStage e w file left right).1.diffCalls = w.diffCalls := by
  unfold diffobj.diffStage
  cases e.write1 with
  | some err => simp [Write]
  | none =>
    simp only [Write]
    split
    · simp
    · simp only
      exact diffRender_logs o e _ _ _ _

theorem diff_logs (o : diffobj) (e : DiffEnv) (w : World) (left right : String) :
    (o.diff e w left right).1.logs = w.logs := by
  unfold diffobj.diff
  simp only
  split
  · rfl
  · exact (diffStage_logs o e _ _ _ _).1

theorem diff_diffCalls (o : diffobj) (e : DiffEnv) (w : World) (left right : String) :
    (o.diff e w left right).1.diffCalls = w.diffCalls ++ [(left, right)] := by
  unfold diffobj.diff
  simp only
  split
  · rfl
  · exact (diffStage_logs o e _ _ _ _).2

theorem diffRender_result (o : diffobj) (e : DiffEnv) (w : World) (file file2 right : String) :
    (e.write2 = none ∧ (o.diffRender e w file file2 right).2 = none ∧
      (o.diffRender e w file file2 right).1.output = w.output ++ [o.header e.now,
        (e.bash (Sprintf script [file, o.labelName, file2, o.labelName])
          (Write none file2 right w.files).2).1] ∧
      (o.diffRender e w file file2 right).1.commands = w.commands ++
        [["bash", "-c", Sprintf script [file, o.labelName, file2, o.labelName]]]) ∨
    (∃ err, e.write2 = some err ∧ (o.diffRender e w file file2 right).2 = some err ∧
      (o.diffRender e w file file2 right).1.output = w.output ∧
      (o.diffRender e w file file2 right).1.commands = w.commands) := by
  unfold diffobj.diffRender
  cases hw : e.write2 with
  | some err => right; exact ⟨err, rfl, by simp [Write]⟩
  | none => left; simp [Write]

theorem diffStage_result (o : diffobj) (e : DiffEnv) (w : World) (file left right c : String)
    (fs : Files) (h : file ∉ fileNames fs) (hw : w.files = (file, c) :: fs) :
    (∃ f2, e.write1 = none ∧ e.tempFile2 (o.fileName ++ ".yaml-") = .ok f2 ∧
      f2 ∉ file :: fileNames fs ∧ e.write2 = none ∧
      (o.diffStage e w file left right).2 = none ∧
      (o.diffStage e w file left right).1.output = w.output ++ [o.header e.now,
        (e.bash (Sprintf script [file, o.labelName, f2, o.labelName])
          ((f2, right) :: (file, left) :: fs)).1] ∧
      (o.diffStage e w file left right).1.commands = w.commands ++
        [["bash", "-c", Sprintf script [file, o.labelName, f2, o.labelName]]]) ∨
    (∃ err, (o.diffStage e w file left right).2 = some err ∧
      (o.diffStage e w file left right).1.output = w.output ∧
      (o.diffStage e w file left right).1.commands = w.commands ∧
      ∀ f2, ¬ (e.write1 = none ∧ e.tempFile2 (o.fileName ++ ".yaml-") = .ok f2 ∧
        f2 ∉ file :: fileNames fs ∧ e.write2 = none)) := by
  unfold diffobj.diffStage
  cases hwr : e.write1 with
  | some err => right; exact ⟨err, by simp [Write]⟩
  | none =>
    have hmap := Write_cons_self none file c left fs h
    simp only [Write, if_true] at hmap
    simp only [Write, hw, hmap]
    cases ht : TempFile (e.tempFile2 (o.fileName ++ ".yaml-")) ((file, left) :: fs) with
    | error err =>
      right
      refine ⟨err, rfl, rfl, rfl, ?_⟩
      rintro f2 ⟨-, h2, h3, -⟩
      rw [h2] at ht
      have h3x : f2 ∉ fileNames ((file, left) :: fs) := by simpa [fileNames] using h3
      simp [TempFile, h3x] at ht
    | ok r =>
      obtain ⟨file2, fs2⟩ := r
      obtain ⟨ha, hfresh, hfs2⟩ := TempFile_ok _ _ _ _ ht
      have hfresh2 : file2 ∉ file :: fileNames fs := by simpa [fileNames] using hfresh
      subst hfs2
      simp only
      have hmap2 := Write_cons_self none file2 "" right ((file, left) :: fs) hfresh
      simp only [if_true] at hmap2
      rcases diffRender_result o e ⟨(file2, "") :: (file, left) :: fs, w.output, w.logs,
          w.diffCalls, w.commands⟩ file file2 right with ⟨h1, h2, h3, h4⟩ | ⟨err, h1, h2, h3, h4⟩
      · left
        rw [hmap2] at h3
        exact ⟨file2, trivial, ha, hfresh2, h1, h2, h3, h4⟩
      · right
        refine ⟨err, h2, h3, h4, ?_⟩
        rintro f2 ⟨-, -, -, h5⟩
        rw [h1] at h5
        cases h5

theorem diff_result (o : diffobj) (e : DiffEnv) (w : World) (left right : String) :
    (∃ f1 f2, stepsSucceed o e w.files f1 f2 ∧
      (o.diff e w left right).2 = none ∧
      (o.diff e w left right).1.output = w.output ++ [o.header e.now,
        (e.bash (Sprintf script [f1, o.labelName, f2, o.labelName])
          ((f2, right) :: (f1, left) :: w.files)).1] ∧
      (o.diff e w left right).1.commands = w.commands ++
        [["bash", "-c", Sprintf script [f1, o.labelName, f2, o.labelName]]]) ∨
    (∃ err, (o.diff e w left right).2 = some err ∧
      (o.diff e w left right).1.output = w.output ∧
      (o.diff e w left right).1.commands = w.commands ∧
      ∀ f1 f2, ¬ stepsSucceed o e w.files f1 f2) := by
  unfold diffobj.diff
  simp only
  cases ht : TempFile (e.tempFile1 (o.fileName ++ ".yaml-")) w.files with
  | error err =>
    right
    refine ⟨err, rfl, rfl, rfl, ?_⟩
    rintro f1 f2 ⟨h1, h2, -⟩
    rw [h1] at ht
    simp [TempFile, h2] at ht
  | ok r =>
    obtain ⟨file, fs1⟩ := r
    obtain ⟨ha, hfresh, hfs1⟩ := TempFile_ok _ _ _ _ ht
    subst hfs1
    simp only
    rcases diffStage_result o e ⟨(file, "") :: w.files, w.output, w.logs,
        w.diffCalls ++ [(left, right)], w.commands⟩ file left right "" w.files hfresh rfl with
      ⟨f2, h1, h2, h3, h4, h5, h6, h7⟩ | ⟨err, h1, h2, h3, h4⟩
    · left
      exact ⟨file, f2, ⟨ha, hfresh, h1, h2, h3, h4⟩, h5, h6, h7⟩
    · right
      refine ⟨err, h1, h2, h3, ?_⟩
      rintro f1 f2 ⟨g1, -, g3, g4, g5, g6⟩
      rw [ha] at g1
      cases g1
      exact h4 f2 ⟨g3, g4, g5, g6⟩

theorem diffRender_err_bash (o : diffobj) (e : DiffEnv) (w : World) (file file2 right : String)
    (sh : String → Files → String × Option String) :
    (o.diffRender { e with bash := sh } w file file2 right).2 =
      (o.diffRender e w file file2 right).2 := by
  unfold diffobj.diffRender
  cases e.write2 <;> simp [Write]

theorem diffStage_err_bash (o : diffobj) (e : DiffEnv) (w : World) (file left right : String)
    (sh : String → Files → String × Option String) :
    (o.diffStage { e with bash := sh } w file left right).2 =
      (o.diffStage e w file left right).2 := by
  unfold diffobj.diffStage
  cases e.write1 with
  | some err => simp [Write]
  | none =>
    simp only [Write]
    split
    · rfl
    · exact diffRender_err_bash o e _ _ _ _ sh

theorem diff_err_bash (o : diffobj) (e : DiffEnv) (w : World) (left right : String)
    (sh : String → Files → String × Option String) :
    (o.diff { e with bash := sh } w left right).2 = (o.diff e w left right).2 := by
  unfold diffobj.diff
  simp only
  split
  · rfl
  · exact diffStage_err_bash o e _ _ _ _ sh

theorem diff_none_iff (o : diffobj) (e : DiffEnv) (w : World) (left right : String) :
    (o.diff e w left right).2 = none ↔ ∃ f1 f2, stepsSucceed o e w.files f1 f2 := by
  rcases diff_result o e w left right with ⟨f1, f2, h1, h2, -⟩ | ⟨err, h1, -, -, h4⟩
  · exact ⟨fun _ => ⟨f1, f2, h1⟩, fun _ => h2⟩
  · constructor
    · intro h
      rw [h1] at h
      cases h
    · rintro ⟨f1, f2, h⟩
      exact absurd h (h4 f1 f2)

/-! ## Lemmas on `diffWithPrevious` and `feed` -/

theorem diffWithPrevious_fresh (o : diffobj) (e : DiffEnv) (w : World) (u : Unstructured)
    (h : o.baseObject = none) :
    o.diffWithPrevious e w (.unstructured u) =
      ({ o with baseObject := some u, baseYAML := (yamlMarshal u).1 }, w) := by
  simp [diffobj.diffWithPrevious, h]

theorem diffWithPrevious_same (o : diffobj) (e : DiffEnv) (w : World) (b u : Unstructured)
    (hb : o.baseObject = some b) (hv : b.GetResourceVersion = u.GetResourceVersion) :
    o.diffWithPrevious e w (.unstructured u) = (o, w) := by
  simp [diffobj.diffWithPrevious, hb, hv]

theorem diffWithPrevious_changed_ok (o : diffobj) (e : DiffEnv) (w : World) (b u : Unstructured)
    (hb : o.baseObject = some b) (hv : b.GetResourceVersion ≠ u.GetResourceVersion)
    (hok : (o.diff e w o.baseYAML (yamlMarshal u).1).2 = none) :
    o.diffWithPrevious e w (.unstructured u) =
      ({ o with baseObject := some u, baseYAML := (yamlMarshal u).1 },
        (o.diff e w o.baseYAML (yamlMarshal u).1).1) := by
  simp only [diffobj.diffWithPrevious, hb, hv, if_false]
  split
  · rename_i w1 err heq
    rw [heq] at hok
    cases hok
  · rename_i w1 heq
    rw [heq]

theorem diffWithPrevious_changed_err (o : diffobj) (e : DiffEnv) (w : World) (b u : Unstructured)
    (err : String)
    (hb : o.baseObject = some b) (hv : b.GetResourceVersion ≠ u.GetResourceVersion)
    (herr : (o.diff e w o.baseYAML (yamlMarshal u).1).2 = some err) :
    o.diffWithPrevious e w (.unstructured u) =
      (o, { (o.diff e w o.baseYAML (yamlMarshal u).1).1 with
              logs := w.logs ++ ["diff failed " ++ err] }) := by
  simp only [diffobj.diffWithPrevious, hb, hv, if_false]
  split
  · rename_i w1 err1 heq
    rw [heq] at herr
    cases herr
    have hl := diff_logs o e w o.baseYAML (yamlMarshal u).1
    rw [heq] at hl
    simp only at hl
    rw [heq, hl]
  · rename_i w1 heq
    rw [heq] at herr
    cases herr

theorem feed_append (o : diffobj) (w : World) (l1 l2 : List (Payload × DiffEnv)) :
    feed o w (l1 ++ l2) = feed (feed o w l1).1 (feed o w l1).2 l2 := by
  induction l1 generalizing o w with
  | nil => rfl
  | cons x l1 ih => simp only [List.cons_append, feed]; exact ih _ _

theorem diffWithPrevious_logs_grow (o : diffobj) (e : DiffEnv) (w : World) (obj : Payload) :
    w.logs <+: (o.diffWithPrevious e w obj).2.logs := by
  cases obj with
  | other t => exact List.prefix_refl _
  | unstructured u =>
    cases hb : o.baseObject with
    | none => rw [diffWithPrevious_fresh o e w u hb]
    | some b =>
      by_cases hv : b.GetResourceVersion = u.GetResourceVersion
      · rw [diffWithPrevious_same o e w b u hb hv]
      · cases hd : (o.diff e w o.baseYAML (yamlMarshal u).1).2 with
        | none =>
          rw [diffWithPrevious_changed_ok o e w b u hb hv hd, diff_logs]
        | some err =>
          rw [diffWithPrevious_changed_err o e w b u err hb hv hd]
          exact List.prefix_append _ _

theorem feed_logs_grow (o : diffobj) (w : World) (evs : List (Payload × DiffEnv)) :
    w.logs <+: (feed o w evs).2.logs := by
  induction evs generalizing o w with
  | nil => exact List.prefix_refl _
  | cons x evs ih =>
    simp only [feed]
    exact (diffWithPrevious_logs_grow o x.2 w x.1).trans (ih _ _)

theorem feed_logs_eq_of_final (o : diffobj) (w : World) (l1 l2 : List (Payload × DiffEnv))
    (h : (feed o w (l1 ++ l2)).2.logs = w.logs) : (feed o w l1).2.logs = w.logs := by
  rw [feed_append] at h
  have h1 := feed_logs_grow o w l1
  have h2 := feed_logs_grow (feed o w l1).1 (feed o w l1).2 l2
  rw [h] at h2
  exact (List.IsPrefix.eq_of_length h1 (Nat.le_antisymm h1.length_le h2.length_le)).symm

theorem step_no_failure (o : diffobj) (e : DiffEnv) (w : World) (b u : Unstructured)
    (rest : List (Payload × DiffEnv))
    (hb : o.baseObject = some b) (hv : b.GetResourceVersion ≠ u.GetResourceVersion)
    (hlogs : (feed (o.diffWithPrevious e w (.unstructured u)).1
      (o.diffWithPrevious e w (.unstructured u)).2 rest).2.logs = w.logs) :
    (o.diff e w o.baseYAML (yamlMarshal u).1).2 = none := by
  cases hd : (o.diff e w o.baseYAML (yamlMarshal u).1).2 with
  | none => rfl
  | some err =>
    exfalso
    have hp := feed_logs_grow (o.diffWithPrevious e w (.unstructured u)).1
      (o.diffWithPrevious e w (.unstructured u)).2 rest
    rw [hlogs, diffWithPrevious_changed_err o e w b u err hb hv hd] at hp
    have := hp.length_le
    simp at this

theorem feed_counts_from (rest : List (Unstructured × DiffEnv)) :
    ∀ (o : diffobj) (w : World) (x : Unstructured × DiffEnv),
      o.baseObject = some x.1 →
      List.Chain (fun a b => a.1.resourceVersion ≠ b.1.resourceVersion) x rest →
      (feed o w (rest.map objectEvent)).2.logs = w.logs →
      (feed o w (rest.map objectEvent)).2.diffCalls.length = w.diffCalls.length + rest.length ∧
      (feed o w (rest.map objectEvent)).2.output.length = w.output.length + 2 * rest.length := by
  induction rest with
  | nil => intro o w x _ _ _; simp [feed]
  | cons y rest ih =>
    intro o w x hb hch hlogs
    rw [List.chain_cons] at hch
    obtain ⟨hxy, hch⟩ := hch
    simp only [List.map_cons, feed, objectEvent] at hlogs ⊢
    have hok := step_no_failure o y.2 w x.1 y.1 _ hb hxy hlogs
    have hstep := diffWithPrevious_changed_ok o y.2 w x.1 y.1 hb hxy hok
    rw [hstep] at hlogs ⊢
    simp only at hlogs ⊢
    have hih := ih _ (o.diff y.2 w o.baseYAML (yamlMarshal y.1).1).1 y rfl hch
      (by rw [hlogs, diff_logs])
    have hdc := diff_diffCalls o y.2 w o.baseYAML (yamlMarshal y.1).1
    have hout : (o.diff y.2 w o.baseYAML (yamlMarshal y.1).1).1.output.length =
        w.output.length + 2 := by
      rcases diff_result o y.2 w o.baseYAML (yamlMarshal y.1).1 with
        ⟨f1, f2, -, -, h3, -⟩ | ⟨err, h1, -⟩
      · rw [h3]; simp
      · rw [h1] at hok; cases hok
    rw [hdc] at hih
    rw [hout] at hih
    simp only [List.length_append, List.length_cons, List.length_nil] at hih ⊢
    omega

theorem feed_counts_fresh (us : List (Unstructured × DiffEnv)) (o : diffobj) (w : World)
    (hfresh : o.baseObject = none) (hch : versionsChange us)
    (hlogs : (feed o w (us.map objectEvent)).2.logs = w.logs) :
    (feed o w (us.map objectEvent)).2.diffCalls.length = w.diffCalls.length + (us.length - 1) ∧
    (feed o w (us.map objectEvent)).2.output.length = w.output.length + 2 * (us.length - 1) := by
  cases us with
  | nil => simp [feed]
  | cons x rest =>
    simp only [List.map_cons, feed, objectEvent] at hlogs ⊢
    rw [diffWithPrevious_fresh o x.2 w x.1 hfresh] at hlogs ⊢
    simp only at hlogs ⊢
    have := feed_counts_from rest _ w x rfl hch hlogs
    simpa using this

theorem feed_dropReplays_from (rest : List (Unstructured × DiffEnv)) :
    ∀ (o : diffobj) (w : World) (b : Unstructured),
      o.baseObject = some b →
      (feed o w (rest.map objectEvent)).2.logs = w.logs →
      feed o w (rest.map objectEvent) =
        feed o w ((dropReplaysAfter b.resourceVersion rest).map objectEvent) := by
  induction rest with
  | nil => intro o w b _ _; rfl
  | cons y rest ih =>
    intro o w b hb hlogs
    by_cases hv : b.GetResourceVersion = y.1.GetResourceVersion
    · have hv2 : y.1.resourceVersion = b.resourceVersion := hv.symm
      simp only [dropReplaysAfter, hv2, if_true]
      simp only [List.map_cons, feed, objectEvent] at hlogs ⊢
      rw [diffWithPrevious_same o y.2 w b y.1 hb hv] at hlogs ⊢
      exact ih o w b hb hlogs
    · have hv2 : ¬ y.1.resourceVersion = b.resourceVersion := fun h => hv h.symm
      simp only [dropReplaysAfter, hv2, if_false]
      simp only [List.map_cons, feed, objectEvent] at hlogs ⊢
      have hok := step_no_failure o y.2 w b y.1 _ hb hv hlogs
      rw [diffWithPrevious_changed_ok o y.2 w b y.1 hb hv hok] at hlogs ⊢
      simp only at hlogs ⊢
      exact ih _ _ y.1 rfl (by rw [hlogs, diff_logs])

theorem feed_dropReplays_fresh (us : List (Unstructured × DiffEnv)) (o : diffobj) (w : World)
    (hfresh : o.baseObject = none)
    (hlogs : (feed o w (us.map objectEvent)).2.logs = w.logs) :
    feed o w (us.map objectEvent) = feed o w ((dropReplays us).map objectEvent) := by
  cases us with
  | nil => rfl
  | cons x rest =>
    simp only [dropReplays, List.map_cons, feed, objectEvent] at hlogs ⊢
    rw [diffWithPrevious_fresh o x.2 w x.1 hfresh] at hlogs ⊢
    simp only at hlogs ⊢
    exact feed_dropReplays_from rest _ w x.1 rfl hlogs

/-! ## The tracker: one event -/

/-- C1 (amended): when the tracker holds a previous snapshot, the incoming object
has a different resourceVersion and `diff` returns no error (both temporary files
are created and written), `diffWithPrevious` calls `diff` on the stored `baseYAML`
and the serialization of the incoming object, the subprocess is run on two files
holding exactly these two texts, and afterwards the previous snapshot is the
incoming object with its serialized text. This holds for every object, in
particular for every well-formed one. -/
theorem diffWithPrevious_renders_and_advances (o : diffobj) (e : DiffEnv) (w : World)
    (b u : Unstructured) (hb : o.baseObject = some b)
    (hv : b.GetResourceVersion ≠ u.GetResourceVersion)
    (hok : (o.diff e w o.baseYAML (yamlMarshal u).1).2 = none) :
    ∃ f1 f2, stepsSucceed o e w.files f1 f2 ∧
      o.diffWithPrevious e w (.unstructured u) =
        ({ o with baseObject := some u, baseYAML := (yamlMarshal u).1 },
          { w with
            diffCalls := w.diffCalls ++ [(o.baseYAML, (yamlMarshal u).1)]
            output := w.output ++ [o.header e.now,
              (e.bash (Sprintf script [f1, o.labelName, f2, o.labelName])
                ((f2, (yamlMarshal u).1) :: (f1, o.baseYAML) :: w.files)).1]
            commands := w.commands ++
              [["bash", "-c", Sprintf script [f1, o.labelName, f2, o.labelName]]] }) := by
  rcases diff_result o e w o.baseYAML (yamlMarshal u).1 with
    ⟨f1, f2, h1, -, h3, h4⟩ | ⟨err, h1, -⟩
  · refine ⟨f1, f2, h1, ?_⟩
    rw [diffWithPrevious_changed_ok o e w b u hb hv hok]
    refine Prod.ext rfl ?_
    apply World.ext
    · exact diff_files _ _ _ _ _
    · exact h3
    · exact diff_logs _ _ _ _ _
    · exact diff_diffCalls _ _ _ _ _
    · exact h4
  · rw [h1] at hok
    cases hok

/-- Witness of C1 (amended): version 2 arrives after version 1 and every step
of `diff` succeeds. -/
theorem diffWithPrevious_renders_and_advances_witness :
    tracker1.baseObject = some objV1 ∧
    objV1.GetResourceVersion ≠ objV2.GetResourceVersion ∧
    (tracker1.diff envOk world0 tracker1.baseYAML (yamlMarshal objV2).1).2 = none ∧
    ∃ f1 f2, stepsSucceed tracker1 envOk world0.files f1 f2 ∧
      tracker1.diffWithPrevious envOk world0 (.unstructured objV2) =
        ({ tracker1 with baseObject := some objV2, baseYAML := (yamlMarshal objV2).1 },
          { world0 with
            diffCalls := world0.diffCalls ++ [(tracker1.baseYAML, (yamlMarshal objV2).1)]
            output := world0.output ++ [tracker1.header envOk.now,
              (envOk.bash (Sprintf script [f1, tracker1.labelName, f2, tracker1.labelName])
                ((f2, (yamlMarshal objV2).1) :: (f1, tracker1.baseYAML) :: world0.files)).1]
            commands := world0.commands ++
              [["bash", "-c", Sprintf script [f1, tracker1.labelName, f2, tracker1.labelName]]] }) :=
  ⟨rfl, by decide, by decide,
    diffWithPrevious_renders_and_advances tracker1 envOk world0 objV1 objV2 rfl (by decide)
      (by decide)⟩

/-- Counterexample to C1 as stated: the tracker holds version 1, the well-formed
version 2 arrives, the first temporary file cannot be created; `diff` returns
the error, nothing reaches the output and the previous snapshot stays version 1. -/
theorem diffWithPrevious_keeps_snapshot_when_diff_fails :
    tracker1.baseObject = some objV1 ∧
    objV1.GetResourceVersion ≠ objV2.GetResourceVersion ∧
    (yamlMarshal objV2).2 = none ∧
    (tracker1.diffWithPrevious envNoTemp world0 (.unstructured objV2)).1.baseObject
      = some objV1 ∧
    (tracker1.diffWithPrevious envNoTemp world0 (.unstructured objV2)).1.baseYAML
      = "replicas: 1" ∧
    (tracker1.diffWithPrevious envNoTemp world0 (.unstructured objV2)).1.baseObject
      ≠ some objV2 ∧
    (tracker1.diffWithPrevious envNoTemp world0 (.unstructured objV2)).2.output = [] := by
  decide

/-- C2: when the tracker holds a previous snapshot and the incoming object has
the same resourceVersion, `diffWithPrevious` changes nothing: the tracker
(`baseObject`, `baseYAML`) and the world (no call of `diff`, no output, no
subprocess) are as before, whatever the content of the incoming object.
Equivalently, if a call of `diff` was made or output was written, the two
resourceVersions differ. -/
theorem diffWithPrevious_same_version_is_silent (o : diffobj) (e : DiffEnv) (w : World)
    (b u : Unstructured) (hb : o.baseObject = some b) :
    (b.GetResourceVersion = u.GetResourceVersion →
      o.diffWithPrevious e w (.unstructured u) = (o, w)) ∧
    ((o.diffWithPrevious e w (.unstructured u)).2.diffCalls ≠ w.diffCalls ∨
      (o.diffWithPrevious e w (.unstructured u)).2.output ≠ w.output →
      b.GetResourceVersion ≠ u.GetResourceVersion) := by
  refine ⟨fun hv => diffWithPrevious_same o e w b u hb hv, ?_⟩
  intro h hv
  rw [diffWithPrevious_same o e w b u hb hv] at h
  rcases h with h | h <;> exact h rfl

/-- Witness of C2: the tracker holds version 1 with text `replicas: 1` and an
object with the same resourceVersion but the text `replicas: 5` arrives. -/
theorem diffWithPrevious_same_version_is_silent_witness :
    tracker1.baseObject = some objV1 ∧
    objV1.GetResourceVersion = (⟨"1", "replicas: 5", none⟩ : Unstructured).GetResourceVersion ∧
    objV1.yamlBytes ≠ (⟨"1", "replicas: 5", none⟩ : Unstructured).yamlBytes ∧
    tracker1.diffWithPrevious envOk world0 (.unstructured ⟨"1", "replicas: 5", none⟩)
      = (tracker1, world0) :=
  ⟨rfl, rfl, by decide,
    (diffWithPrevious_same_version_is_silent tracker1 envOk world0 objV1
      ⟨"1", "replicas: 5", none⟩ rfl).1 rfl⟩

/-- C3: on a tracker without a previous snapshot (`baseObject` nil),
`diffWithPrevious` stores the incoming object and its serialized text and leaves
the world as it is: no call of `diff`, nothing written to the output. -/
theorem diffWithPrevious_first_event_is_stored (o : diffobj) (e : DiffEnv) (w : World)
    (u : Unstructured) (hfresh : o.baseObject = none) :
    o.diffWithPrevious e w (.unstructured u) =
      ({ o with baseObject := some u, baseYAML := (yamlMarshal u).1 }, w) :=
  diffWithPrevious_fresh o e w u hfresh

/-- Witness of C3: version 1 arrives at a tracker that has seen nothing. -/
theorem diffWithPrevious_first_event_is_stored_witness :
    tracker0.baseObject = none ∧
    tracker0.diffWithPrevious envOk world0 (.unstructured objV1) =
      ({ tracker0 with baseObject := some objV1, baseYAML := (yamlMarshal objV1).1 }, world0) :=
  ⟨rfl, diffWithPrevious_first_event_is_stored tracker0 envOk world0 objV1 rfl⟩

/-- C7: a payload that is not an `*unstructured.Unstructured` leaves the tracker
and the world as they are, and a sequence of events with such a payload in it
ends in the same state as the sequence without it. -/
theorem diffWithPrevious_skips_other_payload (o : diffobj) (e : DiffEnv) (w : World)
    (dynType : String) :
    o.diffWithPrevious e w (.other dynType) = (o, w) ∧
    ∀ (o0 : diffobj) (w0 : World) (before after : List (Payload × DiffEnv)),
      feed o0 w0 (before ++ (Payload.other dynType, e) :: after) = feed o0 w0 (before ++ after) := by
  refine ⟨rfl, ?_⟩
  intro o0 w0 before after
  rw [feed_append, feed_append]
  rfl

/-! ## The renderer -/

/-- C9: whatever the outcome of the two creations, the two writes and the
subprocess, the temporary files after a call of `diff` are the temporary files
before it. -/
theorem diff_leaves_no_temporary_file (o : diffobj) (e : DiffEnv) (w : World)
    (left right : String) :
    (o.diff e w left right).1.files = w.files ∧
    fileNames (o.diff e w left right).1.files = fileNames w.files := by
  have h := diff_files o e w left right
  exact ⟨h, by rw [h]⟩

set_option maxRecDepth 100000 in
/-- C10: `labelName` is `resource/namespace/name.yaml`, or `resource/name.yaml`
when the namespace is empty; `fileName` is the same name with `_` for `/` and
without `.yaml`; and the script that `diff` runs, if it runs one, sets both
`oldFileLabel` and `newFileLabel` to `labelName` and passes them to the diff
utility as `old/` and `new/` labels. -/
theorem labels_are_the_qualified_name (o : diffobj) :
    o.labelName = (if o.«namespace» = "" then o.resource ++ "/" ++ o.name ++ ".yaml"
      else o.resource ++ "/" ++ o.«namespace» ++ "/" ++ o.name ++ ".yaml") ∧
    o.fileName = (if o.«namespace» = "" then o.resource ++ "_" ++ o.name
      else o.resource ++ "_" ++ o.«namespace» ++ "_" ++ o.name) ∧
    ∀ (e : DiffEnv) (w : World) (left right : String),
      (o.diff e w left right).1.commands = w.commands ∨
      ∃ f1 f2, (o.diff e w left right).1.commands = w.commands ++ [["bash", "-c",
        "\n#! /bin/bash\noldFile=" ++ f1 ++ "\noldFileLabel=" ++ o.labelName ++ "\nnewFile=" ++ f2
          ++ "\nnewFileLabel=" ++ o.labelName
          ++ "\n\ntype colordiff &>/dev/null && \x7b\n\tcolordiff -ruwN --color-term-output-only=yes $\x7boldFile\x7d --label old/$\x7boldFileLabel\x7d $\x7bnewFile\x7d --label new/$\x7bnewFileLabel\x7d\n\texit 0\n\x7d\ndiff -ruwN $\x7boldFile\x7d --label old/$\x7boldFileLabel\x7d $\x7bnewFile\x7d --label new/$\x7bnewFileLabel\x7d\n"]] := by
  refine ⟨?_, ?_, ?_⟩
  · unfold diffobj.labelName diffobj.formatName
    split <;> rfl
  · unfold diffobj.fileName diffobj.formatName
    split <;> rfl
  · intro e w left right
    rcases diff_result o e w left right with ⟨f1, f2, -, -, -, h4⟩ | ⟨err, -, -, h3, -⟩
    · right
      refine ⟨f1, f2, ?_⟩
      rw [h4, Sprintf_script]
      rfl
    · left
      exact h3

/-! ## Errors -/

theorem diff_output_of_err (o : diffobj) (e : DiffEnv) (w : World) (left right derr : String)
    (h : (o.diff e w left right).2 = some derr) :
    (o.diff e w left right).1.output = w.output := by
  rcases diff_result o e w left right with ⟨f1, f2, -, h2, -⟩ | ⟨err, -, h3, -⟩
  · rw [h2] at h
    cases h
  · exact h3

theorem diff_output_of_ok (o : diffobj) (e : DiffEnv) (w : World) (left right : String)
    (h : (o.diff e w left right).2 = none) :
    ∃ f1 f2, stepsSucceed o e w.files f1 f2 ∧
      (o.diff e w left right).1.output = w.output ++ [o.header e.now,
        (e.bash (Sprintf script [f1, o.labelName, f2, o.labelName])
          ((f2, right) :: (f1, left) :: w.files)).1] := by
  rcases diff_result o e w left right with ⟨f1, f2, h1, -, h3, -⟩ | ⟨err, h1, -⟩
  · exact ⟨f1, f2, h1, h3⟩
  · rw [h1] at h
    cases h

theorem diffWithPrevious_dropped_iff (o : diffobj) (e : DiffEnv) (w : World) (u : Unstructured) :
    ((o.diffWithPrevious e w (.unstructured u)).1 = o ∧
      (o.diffWithPrevious e w (.unstructured u)).2.output = w.output) ↔
    ∃ b, o.baseObject = some b ∧
      (b.GetResourceVersion = u.GetResourceVersion ∨
        (o.diff e w o.baseYAML (yamlMarshal u).1).2 ≠ none) := by
  cases hb : o.baseObject with
  | none =>
    rw [diffWithPrevious_fresh o e w u hb]
    constructor
    · rintro ⟨h1, -⟩
      have h2 := congrArg diffobj.baseObject h1
      simp only at h2
      rw [hb] at h2
      cases h2
    · rintro ⟨b, h, -⟩
      cases h
  | some b =>
    by_cases hv : b.GetResourceVersion = u.GetResourceVersion
    · rw [diffWithPrevious_same o e w b u hb hv]
      exact ⟨fun _ => ⟨b, rfl, Or.inl hv⟩, fun _ => ⟨rfl, rfl⟩⟩
    · cases hd : (o.diff e w o.baseYAML (yamlMarshal u).1).2 with
      | none =>
        rw [diffWithPrevious_changed_ok o e w b u hb hv hd]
        constructor
        · rintro ⟨h1, -⟩
          have h2 := congrArg diffobj.baseObject h1
          simp only at h2
          rw [hb] at h2
          cases h2
          exact absurd rfl hv
        · rintro ⟨b1, h1, h2⟩
          cases h1
          rcases h2 with h2 | h2
          · exact absurd h2 hv
          · exact absurd rfl h2
      | some derr =>
        rw [diffWithPrevious_changed_err o e w b u derr hb hv hd]
        constructor
        · intro _
          exact ⟨b, rfl, Or.inr (by simp)⟩
        · intro _
          exact ⟨rfl, diff_output_of_err o e w _ _ derr hd⟩

/-- C6 (amended): the error of `yaml.Marshal` is discarded. An object that
cannot be serialized is handled like any other, with the bytes the serializer
returned as its text. On a tracker without a previous snapshot it is stored with
that text and nothing is rendered. With the resourceVersion of the previous
snapshot, tracker and world stay as they are. With another resourceVersion
`diff` is called on `baseYAML` and that text: if `diff` returns no error the
diff is rendered and the object stored, and if `diff` returns an error the
tracker stays as it is, nothing is rendered and the failure is logged. So the
event is dropped (tracker unchanged and nothing written to the output) exactly
when a previous snapshot exists and either it has the resourceVersion of the
object or `diff` returns an error. -/
theorem diffWithPrevious_ignores_marshal_error (o : diffobj) (e : DiffEnv) (w : World)
    (u : Unstructured) (err : String) (_hbad : (yamlMarshal u).2 = some err) :
    (o.baseObject = none →
      o.diffWithPrevious e w (.unstructured u) =
        ({ o with baseObject := some u, baseYAML := (yamlMarshal u).1 }, w)) ∧
    (∀ b, o.baseObject = some b → b.GetResourceVersion = u.GetResourceVersion →
      o.diffWithPrevious e w (.unstructured u) = (o, w)) ∧
    (∀ b, o.baseObject = some b → b.GetResourceVersion ≠ u.GetResourceVersion →
      (o.diffWithPrevious e w (.unstructured u)).2.diffCalls =
        w.diffCalls ++ [(o.baseYAML, (yamlMarshal u).1)] ∧
      ((o.diff e w o.baseYAML (yamlMarshal u).1).2 = none →
        (o.diffWithPrevious e w (.unstructured u)).1 =
          { o with baseObject := some u, baseYAML := (yamlMarshal u).1 } ∧
        ∃ f1 f2, stepsSucceed o e w.files f1 f2 ∧
          (o.diffWithPrevious e w (.unstructured u)).2.output =
            w.output ++ [o.header e.now,
              (e.bash (Sprintf script [f1, o.labelName, f2, o.labelName])
                ((f2, (yamlMarshal u).1) :: (f1, o.baseYAML) :: w.files)).1]) ∧
      (∀ derr, (o.diff e w o.baseYAML (yamlMarshal u).1).2 = some derr →
        (o.diffWithPrevious e w (.unstructured u)).1 = o ∧
        (o.diffWithPrevious e w (.unstructured u)).2.output = w.output ∧
        (o.diffWithPrevious e w (.unstructured u)).2.logs =
          w.logs ++ ["diff failed " ++ derr])) ∧
    (((o.diffWithPrevious e w (.unstructured u)).1 = o ∧
        (o.diffWithPrevious e w (.unstructured u)).2.output = w.output) ↔
      ∃ b, o.baseObject = some b ∧
        (b.GetResourceVersion = u.GetResourceVersion ∨
          (o.diff e w o.baseYAML (yamlMarshal u).1).2 ≠ none)) := by
  refine ⟨fun h => diffWithPrevious_fresh o e w u h,
    fun b hb hv => diffWithPrevious_same o e w b u hb hv, ?_,
    diffWithPrevious_dropped_iff o e w u⟩
  intro b hb hv
  refine ⟨?_, ?_, ?_⟩
  · cases hd : (o.diff e w o.baseYAML (yamlMarshal u).1).2 with
    | none => rw [diffWithPrevious_changed_ok o e w b u hb hv hd, diff_diffCalls]
    | some err1 =>
      rw [diffWithPrevious_changed_err o e w b u err1 hb hv hd]
      exact diff_diffCalls _ _ _ _ _
  · intro hd
    rw [diffWithPrevious_changed_ok o e w b u hb hv hd]
    exact ⟨rfl, diff_output_of_ok o e w _ _ hd⟩
  · intro derr hd
    rw [diffWithPrevious_changed_err o e w b u derr hb hv hd]
    exact ⟨rfl, diff_output_of_err o e w _ _ derr hd, rfl⟩

/-- Witness of C6 (amended): an object that `yaml.Marshal` rejects arrives at a
tracker that has seen nothing, and is stored; the same object arrives at a
tracker that holds version 1 while the first temporary file cannot be created,
and is dropped. -/
theorem diffWithPrevious_ignores_marshal_error_witness :
    (yamlMarshal objBad).2 = some "yaml: cannot marshal" ∧
    tracker0.baseObject = none ∧
    tracker0.diffWithPrevious envOk world0 (.unstructured objBad) =
      ({ tracker0 with baseObject := some objBad, baseYAML := (yamlMarshal objBad).1 }, world0) ∧
    ((tracker1.diffWithPrevious envNoTemp world0 (.unstructured objBad)).1 = tracker1 ∧
      (tracker1.diffWithPrevious envNoTemp world0 (.unstructured objBad)).2.output
        = world0.output) :=
  ⟨rfl, rfl,
    (diffWithPrevious_ignores_marshal_error tracker0 envOk world0 objBad
      "yaml: cannot marshal" rfl).1 rfl,
    (diffWithPrevious_ignores_marshal_error tracker1 envNoTemp world0 objBad
      "yaml: cannot marshal" rfl).2.2.2.2 ⟨objV1, rfl, Or.inr (by decide)⟩⟩

/-- Counterexample to C6 as stated: the serializer returns an error for the
object, yet a tracker without a previous snapshot stores it, and a tracker that
holds version 1 calls `diff` for it and then stores it. -/
theorem diffWithPrevious_stores_unserializable_object :
    (yamlMarshal objBad).2 ≠ none ∧
    (tracker0.diffWithPrevious envOk world0 (.unstructured objBad)).1.baseObject
      ≠ tracker0.baseObject ∧
    (tracker1.diffWithPrevious envOk world0 (.unstructured objBad)).1.baseObject
      ≠ tracker1.baseObject ∧
    (tracker1.diffWithPrevious envOk world0 (.unstructured objBad)).2.diffCalls
      = [("replicas: 1", "")] ∧
    (tracker1.diffWithPrevious envOk world0 (.unstructured objBad)).2.output.length = 2 := by
  decide

/-- C8 (amended): `diffWithPrevious` logs `diff failed` exactly when `diff`
returns an error, and then keeps the previous snapshot; `diff` itself logs
nothing and returns an error exactly when a temporary file cannot be created
or written. The error of the subprocess is discarded: what `diff` returns does
not depend on the subprocess at all. -/
theorem diff_failure_is_logged_unless_subprocess (o : diffobj) (e : DiffEnv) (w : World)
    (b u : Unstructured) (hb : o.baseObject = some b)
    (hv : b.GetResourceVersion ≠ u.GetResourceVersion) :
    (∀ err, (o.diff e w o.baseYAML (yamlMarshal u).1).2 = some err →
      (o.diffWithPrevious e w (.unstructured u)).2.logs = w.logs ++ ["diff failed " ++ err] ∧
      (o.diffWithPrevious e w (.unstructured u)).1 = o) ∧
    ((o.diff e w o.baseYAML (yamlMarshal u).1).2 = none →
      (o.diffWithPrevious e w (.unstructured u)).2.logs = w.logs) ∧
    (∀ left right, (o.diff e w left right).1.logs = w.logs) ∧
    (∀ left right, (o.diff e w left right).2 = none ↔
      ∃ f1 f2, stepsSucceed o e w.files f1 f2) ∧
    (∀ left right (sh : String → Files → String × Option String),
      (o.diff { e with bash := sh } w left right).2 = (o.diff e w left right).2) := by
  refine ⟨?_, ?_, fun l r => diff_logs o e w l r, fun l r => diff_none_iff o e w l r,
    fun l r sh => diff_err_bash o e w l r sh⟩
  · intro err herr
    rw [diffWithPrevious_changed_err o e w b u err hb hv herr]
    exact ⟨rfl, rfl⟩
  · intro hok
    rw [diffWithPrevious_changed_ok o e w b u hb hv hok]
    exact diff_logs _ _ _ _ _

/-- Witness of C8 (amended): version 2 arrives after version 1 and the first
temporary file cannot be created; the failure is logged. -/
theorem diff_failure_is_logged_unless_subprocess_witness :
    tracker1.baseObject = some objV1 ∧
    objV1.GetResourceVersion ≠ objV2.GetResourceVersion ∧
    (tracker1.diff envNoTemp world0 tracker1.baseYAML (yamlMarshal objV2).1).2
      = some "no space left on device" ∧
    (tracker1.diffWithPrevious envNoTemp world0 (.unstructured objV2)).2.logs
      = world0.logs ++ ["diff failed " ++ "no space left on device"] ∧
    (tracker1.diffWithPrevious envNoTemp world0 (.unstructured objV2)).1 = tracker1 :=
  ⟨rfl, by decide, by decide,
    (diff_failure_is_logged_unless_subprocess tracker1 envNoTemp world0 objV1 objV2 rfl
      (by decide)).1 "no space left on device" (by decide)⟩

/-- Counterexample to C8 as stated: version 2 arrives after version 1, the
subprocess is run and ends with an error, `diff` returns nil and no log entry is
produced. -/
theorem diff_subprocess_error_is_not_logged :
    (envBashFails.bash "" []).2 = some "exit status 127" ∧
    (tracker1.diff envBashFails world0 "replicas: 1" "replicas: 3").1.commands.length = 1 ∧
    (tracker1.diff envBashFails world0 "replicas: 1" "replicas: 3").2 = none ∧
    (tracker1.diff envBashFails world0 "replicas: 1" "replicas: 3").1.logs = [] ∧
    (tracker1.diffWithPrevious envBashFails world0 (.unstructured objV2)).2.logs = [] ∧
    (tracker1.diffWithPrevious envBashFails world0 (.unstructured objV2)).2.commands.length
      = 1 := by
  decide

/-! ## The tracker: sequences of events -/

/-- C4 (amended): feed a tracker without a previous snapshot a sequence of N
object events in which every resourceVersion differs from the one before it, and
let no call of `diff` return an error (nothing is logged). Then after the first
k events, 1 ≤ k ≤ N, exactly k - 1 calls of `diff` have been made and exactly
k - 1 diffs have been written (a header and the output of the subprocess each):
none for the first event, one for each later event, N - 1 in all. -/
theorem feed_one_diff_per_later_event (o : diffobj) (w : World)
    (us : List (Unstructured × DiffEnv)) (k : Nat)
    (hfresh : o.baseObject = none) (hch : versionsChange us)
    (hlogs : (feed o w (us.map objectEvent)).2.logs = w.logs)
    (_hk1 : 1 ≤ k) (hk : k ≤ us.length) :
    (feed o w ((us.take k).map objectEvent)).2.diffCalls.length
      = w.diffCalls.length + (k - 1) ∧
    (feed o w ((us.take k).map objectEvent)).2.output.length
      = w.output.length + 2 * (k - 1) := by
  have hsplit : us.map objectEvent
      = (us.take k).map objectEvent ++ (us.drop k).map objectEvent := by
    rw [← List.map_append, List.take_append_drop]
  rw [hsplit] at hlogs
  have hlogs1 := feed_logs_eq_of_final o w _ _ hlogs
  have hch1 : versionsChange (us.take k) := List.Chain'.take hch k
  have hlen : (us.take k).length = k := by simp [List.length_take, hk]
  have := feed_counts_fresh (us.take k) o w hfresh hch1 hlogs1
  rw [hlen] at this
  exact this

/-- Witness of C4 (amended): versions 1, 2, 1 in an environment where every
step of `diff` succeeds, observed after all three events. -/
theorem feed_one_diff_per_later_event_witness :
    tracker0.baseObject = none ∧
    versionsChange [(objV1, envOk), (objV2, envOk), (objV1, envOk)] ∧
    (feed tracker0 world0
      ([(objV1, envOk), (objV2, envOk), (objV1, envOk)].map objectEvent)).2.logs = world0.logs ∧
    1 ≤ 3 ∧ 3 ≤ [(objV1, envOk), (objV2, envOk), (objV1, envOk)].length ∧
    (feed tracker0 world0 (([(objV1, envOk), (objV2, envOk), (objV1, envOk)].take 3).map
      objectEvent)).2.diffCalls.length = world0.diffCalls.length + (3 - 1) ∧
    (feed tracker0 world0 (([(objV1, envOk), (objV2, envOk), (objV1, envOk)].take 3).map
      objectEvent)).2.output.length = world0.output.length + 2 * (3 - 1) :=
  ⟨rfl, by simp [versionsChange, objV1, objV2], by decide, by decide, by decide,
    feed_one_diff_per_later_event tracker0 world0
      [(objV1, envOk), (objV2, envOk), (objV1, envOk)] 3 rfl
      (by simp [versionsChange, objV1, objV2]) (by decide) (by decide) (by decide)⟩

/-- Counterexample to C4 as stated: versions 1, 2, 1 arrive, all well-formed,
each resourceVersion different from the one before it, and the first temporary
file cannot be created for the second event. The tracker still holds version 1
when the third event arrives, so the three events produce one call of `diff` and
no diff on the output, not two. -/
theorem feed_three_events_one_diff :
    versionsChange [(objV1, envOk), (objV2, envNoTemp), (objV1, envOk)] ∧
    (∀ x ∈ [(objV1, envOk), (objV2, envNoTemp), (objV1, envOk)], (yamlMarshal x.1).2 = none) ∧
    (feed tracker0 world0
      ([(objV1, envOk), (objV2, envNoTemp), (objV1, envOk)].map objectEvent)).2.diffCalls.length
      = 1 ∧
    (feed tracker0 world0
      ([(objV1, envOk), (objV2, envNoTemp), (objV1, envOk)].map objectEvent)).2.output
      = [] := by
  refine ⟨by simp [versionsChange, objV1, objV2], by simp [yamlMarshal, objV1, objV2], ?_, ?_⟩
  · decide
  · decide

/-- C5 (amended): feed a tracker without a previous snapshot a sequence of
object events and let no call of `diff` return an error (nothing is logged).
Then the final tracker and world, and with them the list of (previous text,
current text) pairs that `diff` was called on and the output, are those reached
on the sequence from which every event with the resourceVersion of the event
immediately before it has been deleted. -/
theorem feed_ignores_replays (o : diffobj) (w : World) (us : List (Unstructured × DiffEnv))
    (hfresh : o.baseObject = none)
    (hlogs : (feed o w (us.map objectEvent)).2.logs = w.logs) :
    feed o w (us.map objectEvent) = feed o w ((dropReplays us).map objectEvent) ∧
    (feed o w (us.map objectEvent)).2.diffCalls
      = (feed o w ((dropReplays us).map objectEvent)).2.diffCalls := by
  have h := feed_dropReplays_fresh us o w hfresh hlogs
  exact ⟨h, by rw [h]⟩

/-- Witness of C5 (amended), the scenario of the specification: version 1
(`replicas: 1`), version 1 again, then version 2 (`replicas: 3`) give exactly
one diff, of `replicas: 1` against `replicas: 3`. -/
theorem feed_ignores_replays_witness :
    tracker0.baseObject = none ∧
    (feed tracker0 world0
      ([(objV1, envOk), (objV1, envOk), (objV2, envOk)].map objectEvent)).2.logs = world0.logs ∧
    dropReplays [(objV1, envOk), (objV1, envOk), (objV2, envOk)]
      = [(objV1, envOk), (objV2, envOk)] ∧
    (feed tracker0 world0
      ([(objV1, envOk), (objV1, envOk), (objV2, envOk)].map objectEvent)).2.diffCalls
      = [("replicas: 1", "replicas: 3")] ∧
    (feed tracker0 world0 ([(objV1, envOk), (objV1, envOk), (objV2, envOk)].map objectEvent)).2.diffCalls
      = (feed tracker0 world0
          ((dropReplays [(objV1, envOk), (objV1, envOk), (objV2, envOk)]).map objectEvent)).2.diffCalls :=
  ⟨rfl, by decide, by simp [dropReplays, dropReplaysAfter, objV1, objV2], by decide,
    (feed_ignores_replays tracker0 world0 [(objV1, envOk), (objV1, envOk), (objV2, envOk)]
      rfl (by decide)).2⟩

/-- Counterexample to C5 as stated: version 1, version 2, version 2 again, all
well-formed, with the first temporary file failing for the second event. The
replayed version 2 is diffed against version 1 once more, so the sequence gives
two calls of `diff` and one diff on the output, while the sequence without the
replay gives one call and no output. -/
theorem feed_replay_after_failed_diff :
    dropReplays [(objV1, envOk), (objV2, envNoTemp), (objV2, envOk)]
      = [(objV1, envOk), (objV2, envNoTemp)] ∧
    (feed tracker0 world0
      ([(objV1, envOk), (objV2, envNoTemp), (objV2, envOk)].map objectEvent)).2.diffCalls
      = [("replicas: 1", "replicas: 3"), ("replicas: 1", "replicas: 3")] ∧
    (feed tracker0 world0
      ([(objV1, envOk), (objV2, envNoTemp)].map objectEvent)).2.diffCalls
      = [("replicas: 1", "replicas: 3")] ∧
    (feed tracker0 world0
      ([(objV1, envOk), (objV2, envNoTemp), (objV2, envOk)].map objectEvent)).2.output.length
      = 2 ∧
    (feed tracker0 world0
      ([(objV1, envOk), (objV2, envNoTemp)].map objectEvent)).2.output.length = 0 := by
  refine ⟨by simp [dropReplays, dropReplaysAfter, objV1, objV2], ?_, ?_, ?_, ?_⟩ <;> decide

end KubeWatchDiff
